import Mathlib

set_option maxRecDepth 40000
set_option maxHeartbeats 2000000

/-!
# Verification of the OCR extraction pipeline of marketplace-bulk-editor

Shallow embedding of `backend/utils/ocr_processor.py`:

* `fix_common_ocr_errors` (lines 125-183) together with the pattern table
  `OCR_ERROR_PATTERNS` (lines 16-77): embedded on top of a small backtracking
  regular-expression engine (`RE`, `reMatch`, `reSub`, `reSearch`) that implements
  exactly the constructs used by the source patterns (single-character
  classes, greedy counted repetition of a class, word boundaries `\b`, a
  single-character lookahead `(?=[A-Z])`, capturing groups and `\n` group
  references in replacement templates), with Python `re.sub`/`re.search`
  scanning semantics (leftmost match, greedy backtracking, non-overlapping
  continuation at the match end).
* `merge_text_regions_by_line` (lines 255-402): rational-number coordinates
  stand for the Python floats; `List.insertionSort` with a `≤` comparator
  stands for Python's stable `list.sort` (both are stable, so they agree).
* `preprocess_image_enhanced` (lines 186-252): the emitted variant labels and
  their conditions on the source dimensions; the actual image rendering is an
  external PIL effect and is not part of any claim.
* `process_image_multi_method` (lines 482-553): the orchestration over an
  abstract environment `OcrEnv` describing the per-variant outcome of each
  engine (a thrown exception or a `(text, confidence[, blocks])` result).
* `parse_product_catalog` (lines 556-596).
-/

/-! ## A small regular-expression engine (Python `re` subset)

Every pattern in the source uses only: literal characters, the classes
`[A-Z] [a-z] \d \s [.,]`, greedy counted repetition of a single-character
class (plus, star, optional, and counted forms), the word boundary `\b`, the lookahead
`(?=[A-Z])` and capturing groups whose contents are class repetitions or
class-sequences.  The engine below implements precisely this fragment. -/

inductive CClass where
  | upper
  | lower
  | digit
  | space
  | one (c : Char)
  | dotOrComma
deriving DecidableEq

def CClass.mem : CClass → Char → Bool
  | .upper, c => 'A' ≤ c && c ≤ 'Z'
  | .lower, c => 'a' ≤ c && c ≤ 'z'
  | .digit, c => c.isDigit
  | .space, c => c == ' ' || c == '\t' || c == '\n' || c == '\r' || c == '\x0b' || c == '\x0c'
  | .one c', c => c == c'
  | .dotOrComma, c => c == '.' || c == ','

inductive RE where
  | eps
  | ch (c : CClass)
  | wb
  | look (c : CClass)
  | seq (a b : RE)
  | grp (n : Nat) (a : RE)
  | rep (c : CClass) (lo : Nat) (hi : Option Nat)
deriving DecidableEq

/-- Python `\w`: ASCII letters, digits and underscore. -/
def isWordChar (c : Char) : Bool := c.isAlphanum || c == '_'

def optWord (o : Option Char) : Bool :=
  match o with
  | some c => isWordChar c
  | none => false

/-- Whether `\b` holds between the previous character and the head of the rest. -/
def wordBoundary (prev : Option Char) (rest : List Char) : Bool :=
  optWord prev != optWord rest.head?

/-- Captured groups: group index paired with the captured characters. -/
abbrev Caps := List (Nat × List Char)

/-- Longest run of leading characters of `l` belonging to class `c`. -/
def countLeading (c : CClass) : List Char → Nat
  | [] => 0
  | x :: xs => if c.mem x then countLeading c xs + 1 else 0

/-- Greedy repetition: try consuming `j` characters, backing off one at a
time down to `lo`, handing the remainder to the continuation `k`. -/
def repTry (p : Option Char) (r : List Char) (cs : Caps)
    (k : Option Char → List Char → Caps → Option (List Char × Caps)) (lo : Nat) :
    Nat → Option (List Char × Caps)
  | 0 =>
    if lo = 0 then k p r cs else none
  | j + 1 =>
    if j + 1 < lo then none
    else
      let consumed := r.take (j + 1)
      match k consumed.getLast? (r.drop (j + 1)) cs with
      | some res => some res
      | none => repTry p r cs k lo j

/-- Structural size of a pattern, an upper bound on the nesting depth of
recursive matcher calls; used as fuel so that the matcher is structurally
recursive (and hence kernel-reducible). -/
def reSize : RE → Nat
  | .seq a b => reSize a + reSize b + 1
  | .grp _ a => reSize a + 1
  | _ => 1

/-- Backtracking matcher in continuation-passing style.  `prev` is the
character just before the current position (for `\b`), `rest` the input from
the current position on.  The continuation receives the updated `prev`, the
unconsumed input and the captures; the final result is the unconsumed suffix
after the whole match plus the captures.  The fuel only needs to dominate
the pattern's nesting depth; `reMatch` below supplies `reSize`, which always
suffices, so the `0` branch is never taken. -/
def reMatchF : Nat → RE → Option Char → List Char → Caps →
    (Option Char → List Char → Caps → Option (List Char × Caps)) →
    Option (List Char × Caps)
  | 0, _, _, _, _, _ => none
  | fuel + 1, re, p, r, cs, k =>
    match re with
    | .eps => k p r cs
    | .ch c =>
      match r with
      | [] => none
      | x :: xs => if c.mem x then k (some x) xs cs else none
    | .wb => if wordBoundary p r then k p r cs else none
    | .look c =>
      match r with
      | [] => none
      | x :: _ => if c.mem x then k p r cs else none
    | .seq a b => reMatchF fuel a p r cs (fun p' r' cs' => reMatchF fuel b p' r' cs' k)
    | .grp n a =>
      reMatchF fuel a p r cs (fun p' r' cs' => k p' r' (cs' ++ [(n, r.take (r.length - r'.length))]))
    | .rep c lo hi =>
      let maxT :=
        match hi with
        | none => countLeading c r
        | some h => min h (countLeading c r)
      repTry p r cs k lo maxT

def reMatch (re : RE) (p : Option Char) (r : List Char) (cs : Caps)
    (k : Option Char → List Char → Caps → Option (List Char × Caps)) :
    Option (List Char × Caps) :=
  reMatchF (reSize re) re p r cs k

def contOk : Option Char → List Char → Caps → Option (List Char × Caps) :=
  fun _ r cs => some (r, cs)

/-- One pass of Python `re.sub` scanning: try a match at every position from
left to right; on a match emit the replacement and continue right after the
match (after the next character for an empty match, copying it).  The fuel is
an upper bound on the number of scanning steps; `length + 1` always
suffices since every step consumes at least one input character or ends the
scan. -/
def reSubGo (re : RE) (repl : List Char → Caps → List Char) :
    Nat → Option Char → List Char → List Char
  | 0, _, rest => rest
  | fuel + 1, prev, rest =>
    match reMatch re prev rest [] contOk with
    | none =>
      match rest with
      | [] => []
      | x :: xs => x :: reSubGo re repl fuel (some x) xs
    | some (rest', cs) =>
      let m := rest.length - rest'.length
      if m = 0 then
        match rest with
        | [] => repl [] cs
        | x :: xs => repl [] cs ++ x :: reSubGo re repl fuel (some x) xs
      else
        let matched := rest.take m
        repl matched cs ++ reSubGo re repl fuel matched.getLast? rest'

def reSub (re : RE) (repl : List Char → Caps → List Char) (s : List Char) : List Char :=
  reSubGo re repl (s.length + 1) none s

/-- Python `re.search`: the leftmost match, returned as (matched text, captures). -/
def reSearchGo (re : RE) : Nat → Option Char → List Char → Option (List Char × Caps)
  | 0, _, _ => none
  | fuel + 1, prev, rest =>
    match reMatch re prev rest [] contOk with
    | some (rest', cs) => some (rest.take (rest.length - rest'.length), cs)
    | none =>
      match rest with
      | [] => none
      | x :: xs => reSearchGo re fuel (some x) xs

def reSearch (re : RE) (s : List Char) : Option (List Char × Caps) :=
  reSearchGo re (s.length + 1) none s

/-- Replacement templates: literal pieces and `\n` group references. -/
inductive RItem where
  | str (s : String)
  | gref (n : Nat)

def capLookup (cs : Caps) (n : Nat) : List Char :=
  (((cs.find? (fun q => q.1 == n))).map (fun q => q.2)).getD []

def templateRepl (items : List RItem) : List Char → Caps → List Char :=
  fun _ cs =>
    items.foldr
      (fun it acc =>
        (match it with
         | .str s => s.data
         | .gref n => capLookup cs n) ++ acc)
      []

/-- A sequence of literal characters. -/
def rstr (s : String) : RE := s.data.foldr (fun c r => RE.seq (RE.ch (CClass.one c)) r) RE.eps

def rcat (l : List RE) : RE := l.foldr RE.seq RE.eps

/-- Pattern `\b<word>\b`. -/
def rword (s : String) : RE := RE.seq RE.wb (RE.seq (rstr s) RE.wb)

/-! ## The Text Corrector: `OCR_ERROR_PATTERNS` and `fix_common_ocr_errors` -/

/-- The table `OCR_ERROR_PATTERNS` (source lines 16-77), in dict insertion order.
Each entry is the translated pattern and its replacement template. -/
def OCR_ERROR_PATTERNS : List (RE × List RItem) :=
  [ -- r'\bfi le\b': 'file'
    (rword "fi le", [.str "file"]),
    -- r'\bfi les\b': 'files'
    (rword "fi les", [.str "files"]),
    -- r'\bCsV\b': 'CSV'
    (rword "CsV", [.str "CSV"]),
    -- r'\bJsON\b': 'JSON'
    (rword "JsON", [.str "JSON"]),
    -- r'\bXLsx\b': 'XLSX'
    (rword "XLsx", [.str "XLSX"]),
    -- r'\bXLSx\b': 'XLSX'
    (rword "XLSx", [.str "XLSX"]),
    -- r'\bxlsx\b': 'xlsx'
    (rword "xlsx", [.str "xlsx"]),
    -- r'\bplo\b': 'upload'
    (rword "plo", [.str "upload"]),
    -- r'\bDI([A-Z][a-z]+)': r'\1'
    (rcat [RE.wb, rstr "DI", RE.grp 1 (rcat [RE.ch CClass.upper, RE.rep CClass.lower 1 none])],
      [.gref 1]),
    -- r'\bOD([A-Z][a-z]+)': r'\1'
    (rcat [RE.wb, rstr "OD", RE.grp 1 (rcat [RE.ch CClass.upper, RE.rep CClass.lower 1 none])],
      [.gref 1]),
    -- r'\bV([A-Z][a-z]+)': r'\1'
    (rcat [RE.wb, rstr "V", RE.grp 1 (rcat [RE.ch CClass.upper, RE.rep CClass.lower 1 none])],
      [.gref 1]),
    -- r'\b0([A-Z])': r'O\1'
    (rcat [RE.wb, rstr "0", RE.grp 1 (RE.ch CClass.upper)], [.str "O", .gref 1]),
    -- r'\bl([A-Z])': r'I\1'
    (rcat [RE.wb, rstr "l", RE.grp 1 (RE.ch CClass.upper)], [.str "I", .gref 1]),
    -- r'\b([A-Z][a-z]+)0\b': r'\1O'
    (rcat [RE.wb, RE.grp 1 (rcat [RE.ch CClass.upper, RE.rep CClass.lower 1 none]),
      rstr "0", RE.wb], [.gref 1, .str "O"]),
    -- r'\$\s*O(\d)': r'$\1'
    (rcat [rstr "$", RE.rep CClass.space 0 none, rstr "O", RE.grp 1 (RE.ch CClass.digit)],
      [.str "$", .gref 1]),
    -- r'\$\s*0(\d)': r'$\1'
    (rcat [rstr "$", RE.rep CClass.space 0 none, rstr "0", RE.grp 1 (RE.ch CClass.digit)],
      [.str "$", .gref 1]),
    -- r'(\d)\s*O\s*(\d)': r'\1O\2'
    (rcat [RE.grp 1 (RE.ch CClass.digit), RE.rep CClass.space 0 none, rstr "O",
      RE.rep CClass.space 0 none, RE.grp 2 (RE.ch CClass.digit)],
      [.gref 1, .str "O", .gref 2]),
    -- r'\btitIe\b': 'title'
    (rword "titIe", [.str "title"]),
    -- r'\bTITIE\b': 'TITLE'
    (rword "TITIE", [.str "TITLE"]),
    -- r'\bprlce\b': 'price'
    (rword "prlce", [.str "price"]),
    -- r'\bPRIGE\b': 'PRICE'
    (rword "PRIGE", [.str "PRICE"]),
    -- r'\bconditlon\b': 'condition'
    (rword "conditlon", [.str "condition"]),
    -- r'\bGONDITION\b': 'CONDITION'
    (rword "GONDITION", [.str "CONDITION"]),
    -- r'\bdescriptlon\b': 'description'
    (rword "descriptlon", [.str "description"]),
    -- r'\bDESGRIPTION\b': 'DESCRIPTION'
    (rword "DESGRIPTION", [.str "DESCRIPTION"]),
    -- r'\bcategOry\b': 'category'
    (rword "categOry", [.str "category"]),
    -- r'\bGATEGORY\b': 'CATEGORY'
    (rword "GATEGORY", [.str "CATEGORY"]),
    -- r'\bshlpping\b': 'shipping'
    (rword "shlpping", [.str "shipping"]),
    -- r'\bSHIPPING\b': 'SHIPPING'
    (rword "SHIPPING", [.str "SHIPPING"]),
    -- r'\brn\b': 'm'
    (rword "rn", [.str "m"]),
    -- r'\bfrorn\b': 'from'
    (rword "frorn", [.str "from"]),
    -- r'\btl1e\b': 'the'
    (rword "tl1e", [.str "the"]),
    -- r'\btl1is\b': 'this'
    (rword "tl1is", [.str "this"]),
    -- r'\btl1at\b': 'that'
    (rword "tl1at", [.str "that"]),
    -- r'\bwitl1\b': 'with'
    (rword "witl1", [.str "with"]),
    -- r'\bwl1ich\b': 'which'
    (rword "wl1ich", [.str "which"]),
    -- r'\bwl1ere\b': 'where'
    (rword "wl1ere", [.str "where"]),
    -- r'\bwl1en\b': 'when'
    (rword "wl1en", [.str "when"]),
    -- r'\bwl1at\b': 'what'
    (rword "wl1at", [.str "what"]),
    -- r'\bwl1o\b': 'who'
    (rword "wl1o", [.str "who"]),
    -- r'\$\s+(\d)': r'$\1'
    (rcat [rstr "$", RE.rep CClass.space 1 none, RE.grp 1 (RE.ch CClass.digit)],
      [.str "$", .gref 1]),
    -- r'(\d)\s+\.\s+(\d{2})': r'\1.\2'
    (rcat [RE.grp 1 (RE.ch CClass.digit), RE.rep CClass.space 1 none, rstr ".",
      RE.rep CClass.space 1 none, RE.grp 2 (RE.rep CClass.digit 2 (some 2))],
      [.gref 1, .str ".", .gref 2]),
    -- r'(\d),\s*(\d{3})': r'\1,\2'
    (rcat [RE.grp 1 (RE.ch CClass.digit), rstr ",", RE.rep CClass.space 0 none,
      RE.grp 2 (RE.rep CClass.digit 3 (some 3))],
      [.gref 1, .str ",", .gref 2]),
    -- r'([A-Z]{3,})([A-Z]{3,})': r'\1 \2'
    (rcat [RE.grp 1 (RE.rep CClass.upper 3 none), RE.grp 2 (RE.rep CClass.upper 3 none)],
      [.gref 1, .str " ", .gref 2]) ]

/-- The list `known_words` (source lines 149-158), in source order. -/
def known_words : List String :=
  ["TITLE", "PRICE", "CONDITION", "DESCRIPTION", "CATEGORY",
   "OFFER", "SHIPPING", "NEW", "USED", "LIKE", "GOOD", "FAIR",
   "YES", "NO", "EXPORT", "IMPORT", "EDITOR", "PREVIEW",
   "XLSX", "CSV", "JSON", "SQL", "FACEBOOK", "TEMPLATE",
   "DOWNLOAD", "UPLOAD", "HEADERS", "ONLY", "WITH", "SAMPLE",
   "DATA", "REQUIRED", "COLUMN", "NEXT", "STEPS", "NEED",
   "DIFFERENT", "FORMAT", "SWITCH", "OTHER", "TABS", "EACH",
   "OWN", "BUTTON", "MARKETPLACE", "BULK"]

/-- Python `known_words.sort(key=len, reverse=True)`: a stable sort on descending
length (`List.insertionSort` is stable, like Python's sort). -/
def knownWordsSorted : List String :=
  List.insertionSort (fun a b => b.length ≤ a.length) known_words

/-- Python `str.strip()`. -/
def pyStrip (l : List Char) : List Char :=
  ((l.dropWhile (CClass.space.mem)).reverse.dropWhile (CClass.space.mem)).reverse

/-- Function `split_all_caps` (source lines 163-174): inside a matched all-caps run,
replace each known word that is followed by a further capital with the word
plus a space (pattern `f'({word})(?=[A-Z])'`, replacement `r'\1 '`), then
strip. -/
def split_all_caps (matched : List Char) (_ : Caps) : List Char :=
  pyStrip
    (knownWordsSorted.foldl
      (fun acc w =>
        reSub (RE.seq (RE.grp 1 (rstr w)) (RE.look CClass.upper))
          (templateRepl [.gref 1, .str " "]) acc)
      matched)

/-- Pattern `[A-Z]` repeated six or more times between word boundaries (source line 177). -/
def capsRunPat : RE := rcat [RE.wb, RE.rep CClass.upper 6 none, RE.wb]

/-- Function `fix_common_ocr_errors` (source lines 125-183) on character lists:
first the four split-word repairs, then the all-caps-run splitting via the
known-word dictionary, then the `OCR_ERROR_PATTERNS` table in order. -/
def fixChars (s : List Char) : List Char :=
  let c0 := reSub (rcat [RE.wb, rstr "CONDIT", RE.rep CClass.space 1 none, rstr "ION", RE.wb])
    (fun _ _ => "CONDITION".data) s
  let c1 := reSub (rcat [RE.wb, rstr "DESCRIPT", RE.rep CClass.space 1 none, rstr "ION", RE.wb])
    (fun _ _ => "DESCRIPTION".data) c0
  let c2 := reSub (rcat [RE.wb, rstr "CATEG", RE.rep CClass.space 1 none, rstr "ORY", RE.wb])
    (fun _ _ => "CATEGORY".data) c1
  let c3 := reSub (rcat [RE.wb, rstr "SHIPP", RE.rep CClass.space 1 none, rstr "ING", RE.wb])
    (fun _ _ => "SHIPPING".data) c2
  let c4 := reSub capsRunPat split_all_caps c3
  OCR_ERROR_PATTERNS.foldl (fun acc pr => reSub pr.1 (templateRepl pr.2) acc) c4

def fix_common_ocr_errors (s : String) : String := String.mk (fixChars s.data)

/-! ## The Line Reconstructor: `merge_text_regions_by_line` (source lines 255-402)

Coordinates and confidences are rationals standing for the Python floats.
`dt_polys` entries are 4-point polygons. -/

structure BoxQuad where
  p0 : ℚ × ℚ
  p1 : ℚ × ℚ
  p2 : ℚ × ℚ
  p3 : ℚ × ℚ
deriving DecidableEq, Inhabited

structure Region where
  text : String
  confidence : ℚ
  box : BoxQuad
  y_top : ℚ
  x_left : ℚ
  x_right : ℚ
  height : ℚ
deriving DecidableEq, Inhabited

structure Block where
  text : String
  confidence : ℚ
  box : BoxQuad
  regions_count : ℕ
deriving DecidableEq

/-- Region construction (source lines 287-309): `y_top` is the mean of the
two top-edge y's, `x_left`/`x_right` the min/max x over all four vertices,
`height` the absolute difference of the third and first vertex y's. -/
def mkRegion (t : String) (conf : ℚ) (p : BoxQuad) : Region :=
  { text := t
    confidence := conf
    box := p
    y_top := (p.p0.2 + p.p1.2) / 2
    x_left := min (min p.p0.1 p.p1.1) (min p.p2.1 p.p3.1)
    x_right := max (max p.p0.1 p.p1.1) (max p.p2.1 p.p3.1)
    height := |p.p2.2 - p.p0.2| }

/-- Source lines 280-309: pair texts with polygons (the loop breaks when
`dt_polys` runs out), with confidence `rec_scores[i]` when present, `0.0`
otherwise. -/
def buildRegions (texts : List String) (scores : List ℚ) (polys : List BoxQuad) : List Region :=
  (texts.zip polys).enum.map (fun ip => mkRegion ip.2.1 (scores.getD ip.1 0) ip.2.2)

/-- Sorting `regions.sort(key=lambda r: r['y_top'])` (source line 315); Python's sort
is stable, as is `List.insertionSort`. -/
def sortRegionsByY (rs : List Region) : List Region :=
  List.insertionSort (fun a b => a.y_top ≤ b.y_top) rs

/-- Sorting `line_regions.sort(key=lambda r: r['x_left'])` (source line 350). -/
def sortLineByX (l : List Region) : List Region :=
  List.insertionSort (fun a b => a.x_left ≤ b.x_left) l

/-- Greedy line grouping (source lines 317-342): walking the y-sorted list,
a region joins the current line iff its `y_top` differs from the *previous
list element's* `y_top` by at most `0.5 ×` the average of the two heights. -/
def groupLinesGo (prev : Region) (cur : List Region) : List Region → List (List Region)
  | [] => [cur]
  | c :: rest =>
    if |c.y_top - prev.y_top| ≤ (prev.height + c.height) / 2 * (1 / 2) then
      groupLinesGo c (cur ++ [c]) rest
    else
      cur :: groupLinesGo c [c] rest

def groupLines : List Region → List (List Region)
  | [] => []
  | r :: rest => groupLinesGo r [r] rest

/-- The fully assembled per-line region lists: group by y, then sort each
line left-to-right by `x_left`. -/
def linesStage (rs : List Region) : List (List Region) :=
  (groupLines (sortRegionsByY rs)).map sortLineByX

/-- Gap-dependent text parts (source lines 355-379): for each region after
the first, compare the horizontal gap to the previous region against the
average height of the two. -/
def partsGo (prev : Region) : List Region → List String
  | [] => []
  | curr :: rest =>
    let gap := curr.x_left - prev.x_right
    let avg_height := (prev.height + curr.height) / 2
    let part :=
      if gap < avg_height * 1 then curr.text
      else if gap < avg_height * 2 then " " ++ curr.text
      else "  " ++ curr.text
    part :: partsGo curr rest

def lineParts : List Region → List String
  | [] => []
  | r :: rest => r.text :: partsGo r rest

/-- Joining the parts then applying `fix_common_ocr_errors` (lines 382-385). -/
def lineText (l : List Region) : String :=
  fix_common_ocr_errors (String.join (lineParts l))

/-- Block metadata per line (source lines 395-400). -/
def lineBlock (l : List Region) : Block :=
  { text := lineText l
    confidence := (l.map (fun r => r.confidence)).sum / (l.length : ℚ)
    box := (l.headI).box
    regions_count := l.length }

/-- Function `merge_text_regions_by_line` (source lines 255-402). -/
def merge_text_regions_by_line (rec_texts : List String) (rec_scores : List ℚ)
    (dt_polys : List BoxQuad) : List String × List Block :=
  if rec_texts = [] ∨ dt_polys = [] then ([], [])
  else
    let regions := buildRegions rec_texts rec_scores dt_polys
    if regions = [] then ([], [])
    else
      let lns := linesStage regions
      (lns.map lineText, lns.map lineBlock)

/-! ## The Preprocessor: `preprocess_image_enhanced` (source lines 186-252)

Only the emitted variant labels and their conditions on the source
dimensions are claim-relevant; the PIL rendering (sharpening, contrast,
Lanczos resampling, temporary files) is an external effect.  The emission
structure below mirrors source lines 206-250: four unconditional appends,
then `150pct_sharp` under `width < 2000 or height < 2000`, then
`200pct_sharp` under `width < 1500 or height < 1500`. -/

def preprocess_image_enhanced (width height : ℕ) : List String :=
  let paths0 := ["original", "sharpened", "enhanced_sharp", "contrast_sharp"]
  let paths1 := paths0 ++ (if width < 2000 ∨ height < 2000 then ["150pct_sharp"] else [])
  paths1 ++ (if width < 1500 ∨ height < 1500 then ["200pct_sharp"] else [])

/-! ## The Catalog Parser: `parse_product_catalog` (source lines 556-596) -/

structure ProductRecord where
  name : String
  price : Option ℚ
  description : String
  condition : String
  category : String
deriving DecidableEq

/-- The price pattern: optional dollar sign, digits, a dot or comma, two digits (source line 566). -/
def pricePat : RE :=
  rcat [RE.rep (CClass.one '$') 0 (some 1), RE.rep CClass.digit 1 none,
    RE.ch CClass.dotOrComma, RE.rep CClass.digit 2 (some 2)]

/-- Python `str.split('\n')`. -/
def splitNl : List Char → List (List Char)
  | [] => [[]]
  | c :: cs =>
    if c = '\n' then [] :: splitNl cs
    else
      match splitNl cs with
      | h :: t => (c :: h) :: t
      | [] => [[c]]

def digitVal (c : Char) : ℕ := c.toNat - 48

/-- Python `float()` on the strings that survive
`match.group().replace('$','').replace(',','')`: digit strings with at most
one decimal point (the decimal value is represented exactly as a rational). -/
def pyFloat (l : List Char) : Option ℚ :=
  match l.splitOn '.' with
  | [a] =>
    if a ≠ [] ∧ a.all Char.isDigit then
      some ((a.foldl (fun acc c => acc * 10 + digitVal c) 0 : ℕ) : ℚ)
    else none
  | [a, b] =>
    if (a ++ b) ≠ [] ∧ (a ++ b).all Char.isDigit then
      some (((a.foldl (fun acc c => acc * 10 + digitVal c) 0 : ℕ) : ℚ)
        + ((b.foldl (fun acc c => acc * 10 + digitVal c) 0 : ℕ) : ℚ) / ((10 : ℚ) ^ b.length))
    else none
  | _ => none

/-- The price extracted from one line (source lines 573-581): the first
match of the price pattern, with `$` and `,` removed, parsed as a decimal;
`None` when there is no match (or the parse fails). -/
def parsedPrice (line : List Char) : Option ℚ :=
  match reSearch pricePat line with
  | some mc => pyFloat (mc.1.filter (fun c => ¬(c = '$' ∨ c = ',')))
  | none => none

/-- The candidate name: the line with every price match removed, stripped
(source line 584). -/
def parsedName (line : List Char) : List Char :=
  pyStrip (reSub pricePat (fun _ _ => []) line)

/-- The loop body of `parse_product_catalog` for one stripped line (source
lines 568-594): skip lines shorter than 3 characters; emit a record only
for a non-empty name of length at least 3, with condition "New" and empty
category. -/
def parseLine (line : List Char) : Option ProductRecord :=
  if line.length < 3 then none
  else if parsedName line ≠ [] ∧ 3 ≤ (parsedName line).length then
    some { name := String.mk (parsedName line), price := parsedPrice line,
           description := String.mk line, condition := "New", category := "" }
  else none

/-- Function `parse_product_catalog` (source lines 556-596): split into stripped
non-empty lines and run the line parser on each; the function is total:
malformed lines are skipped, never an error. -/
def parse_product_catalog (raw_text : String) : List ProductRecord :=
  let lines := ((splitNl raw_text.data).map pyStrip).filter (fun l => l ≠ [])
  lines.filterMap parseLine

/-! ## The Orchestrator: `process_image_multi_method` (source lines 482-553)

The engines are abstracted by an environment: for each preprocessed variant,
`paddle` gives the outcome of `process_with_paddleocr` (an exception or a
`(raw_text, confidence, blocks)` triple) and `tesseract` the outcome of
`process_with_tesseract` (an exception or a `(raw_text, confidence)` pair);
the two availability flags mirror `PADDLE_AVAILABLE` / `TESSERACT_AVAILABLE`. -/

inductive EngineKind where
  | primary
  | fallback
deriving DecidableEq

deriving instance DecidableEq for Except

structure LabeledOutcome where
  engine : EngineKind
  variant : String
  outcome : Except String (String × ℚ × List Block)
deriving DecidableEq

structure Candidate where
  raw_text : String
  confidence : ℚ
  blocks : List Block
  method : String
deriving DecidableEq

structure OcrEnv where
  variants : List String
  paddleAvailable : Bool
  tesseractAvailable : Bool
  paddle : String → Except String (String × ℚ × List Block)
  tesseract : String → Except String (String × ℚ)

/-- The method label: the engine name, an underscore, then the variant name. -/
def methodLabel : EngineKind → String → String
  | .primary, v => "paddleocr_" ++ v
  | .fallback, v => "tesseract_" ++ v

/-- The primary-engine attempts (source lines 501-520): one per variant, in
variant order, only when the primary engine is available. -/
def primaryOutcomes (env : OcrEnv) : List LabeledOutcome :=
  if env.paddleAvailable then
    env.variants.map (fun v => ⟨.primary, v, env.paddle v⟩)
  else []

/-- The fallback-engine attempts (source lines 523-541): the Tesseract
result carries no blocks (`'blocks': []`). -/
def fallbackOutcomes (env : OcrEnv) : List LabeledOutcome :=
  env.variants.map (fun v =>
    ⟨.fallback, v, (env.tesseract v).map (fun tc => (tc.1, tc.2, ([] : List Block)))⟩)

/-- The score `confidence * len(raw_text)`; a thrown attempt contributes no
candidate, which the selection fold treats identically to score `0`. -/
def scoreOf (a : LabeledOutcome) : ℚ :=
  match a.outcome with
  | .error _ => 0
  | .ok tcb => tcb.2.1 * (tcb.1.length : ℚ)

/-- One step of the best-candidate selection (source lines 503-518 and
525-539): a per-attempt exception is caught and skipped; a result replaces
the incumbent only on `score > best_score` (strict). -/
def stepBest (st : Option Candidate × ℚ) (a : LabeledOutcome) : Option Candidate × ℚ :=
  match a.outcome with
  | .error _ => st
  | .ok tcb =>
    let score := tcb.2.1 * (tcb.1.length : ℚ)
    if st.2 < score then
      (some ⟨tcb.1, tcb.2.1, tcb.2.2, methodLabel a.engine a.variant⟩, score)
    else st

def selectBest (st : Option Candidate × ℚ) (l : List LabeledOutcome) : Option Candidate × ℚ :=
  l.foldl stepBest st

/-- State after the primary-engine loop, starting from `(None, 0.0)`. -/
def afterPrimary (env : OcrEnv) : Option Candidate × ℚ :=
  selectBest (none, 0) (primaryOutcomes env)

/-- Condition `best_result is None and TESSERACT_AVAILABLE` (source line 523). -/
def fallbackTriggered (env : OcrEnv) : Bool :=
  (afterPrimary env).1.isNone && env.tesseractAvailable

/-- All recognition attempts actually executed, in execution order. -/
def executedAttempts (env : OcrEnv) : List LabeledOutcome :=
  primaryOutcomes env ++ (if fallbackTriggered env then fallbackOutcomes env else [])

/-- The `(engine, variant)` recognition calls in the order they are issued. -/
def attemptTrace (env : OcrEnv) : List (EngineKind × String) :=
  (executedAttempts env).map (fun a => (a.engine, a.variant))

/-- Function `process_image_multi_method` (source lines 482-553): primary loop, then
the fallback loop if no candidate was retained and the fallback engine is
available, then `raise RuntimeError("All OCR methods failed")` if there is
still no best result.  (Wall-clock timing is external and not modelled; the
source attaches it to the winning dict without touching the fields created
at selection time.) -/
def process_image_multi_method (env : OcrEnv) : Except String Candidate :=
  let st1 := afterPrimary env
  let st2 := if fallbackTriggered env then selectBest st1 (fallbackOutcomes env) else st1
  match st2.1 with
  | none => .error "All OCR methods failed"
  | some best => .ok best

/-! ## Concrete fixtures used by witnesses and counterexamples -/

/-- Two boxes on one text row: height 20, the first spanning x ∈ [0, 20],
the second starting at `x = 20 + g` (horizontal gap `g`). -/
def boxA : BoxQuad := ⟨(0, 0), (20, 0), (20, 20), (0, 20)⟩

def boxB (g : ℚ) : BoxQuad := ⟨(20 + g, 0), (40 + g, 0), (40 + g, 20), (20 + g, 20)⟩

/-- Orchestrator environment: the primary engine throws on every variant,
the fallback succeeds. -/
def envAllThrow : OcrEnv :=
  ⟨["original", "sharpened"], true, true,
    fun _ => .error "engine crash",
    fun _ => .ok ("text", 1)⟩

/-- Orchestrator environment: the primary engine succeeds with a positive
score on the single variant. -/
def envPrimaryHit : OcrEnv :=
  ⟨["original"], true, true,
    fun _ => .ok ("hello", 1, []),
    fun _ => .ok ("x", 1)⟩

/-- Orchestrator environment: the primary engine throws, the fallback
returns non-empty text with confidence `0` (as `process_with_tesseract`
does when its confidence query raises, source lines 472-477). -/
def envZeroConf : OcrEnv :=
  ⟨["original"], true, true,
    fun _ => .error "decode failure",
    fun _ => .ok ("abc", 0)⟩

/-- Orchestrator environment: both engines succeed everywhere but every
result has score `0` (empty text or zero confidence). -/
def envAllZero : OcrEnv :=
  ⟨["original", "sharpened"], true, true,
    fun v => if v = "original" then .ok ("", 1, []) else .ok ("text", 0, []),
    fun _ => .ok ("", 1)⟩

/-! ## C2 / C3: the Text Corrector -/

/-- C2 (counterexample): `fix_common_ocr_errors` is *not* idempotent.  On
`"ABCDEFGHI"` the first application yields `"ABCDEF GHI"` (the final
`([A-Z]{3,})([A-Z]{3,})` pattern splits off the last three capitals), and a
second application splits the leading six-capital run again, yielding
`"ABC DEF GHI"` — so applying the corrector a second time to
already-corrected text does not yield the same text. -/
theorem fix_common_ocr_errors_not_idempotent :
    fix_common_ocr_errors "ABCDEFGHI" = "ABCDEF GHI" ∧
    fix_common_ocr_errors "ABCDEF GHI" = "ABC DEF GHI" ∧
    fix_common_ocr_errors (fix_common_ocr_errors "ABCDEFGHI") ≠
      fix_common_ocr_errors "ABCDEFGHI" := by
  refine ⟨by decide, by decide, ?_⟩
  decide

/-- C2 (amended): the corrector is idempotent on the sample lines the spec
actually tests (the scenario strings of spec §8: scenario A's raw
`"fi le"` and merged `"file"`, scenario B's `"TITLEPRICECONDITION"`,
scenario C's `"Vintage Lamp $45.00"` and `"$12.50"`), though not on every
string. -/
theorem fix_common_ocr_errors_idempotent_on_samples :
    fix_common_ocr_errors (fix_common_ocr_errors "fi le") = fix_common_ocr_errors "fi le" ∧
    fix_common_ocr_errors (fix_common_ocr_errors "file") = fix_common_ocr_errors "file" ∧
    fix_common_ocr_errors (fix_common_ocr_errors "TITLEPRICECONDITION") =
      fix_common_ocr_errors "TITLEPRICECONDITION" ∧
    fix_common_ocr_errors (fix_common_ocr_errors "Vintage Lamp $45.00") =
      fix_common_ocr_errors "Vintage Lamp $45.00" ∧
    fix_common_ocr_errors (fix_common_ocr_errors "$12.50") = fix_common_ocr_errors "$12.50" := by
  refine ⟨by decide, by decide, by decide, by decide, ?_⟩
  decide

/-- C3: on `"TITLEPRICECONDITION"` the known-vocabulary pass does produce
`"TITLE PRICE CONDITION"`, but the last entry of `OCR_ERROR_PATTERNS`
(`([A-Z]{3,})([A-Z]{3,})`) then re-splits the nine-capital word
`CONDITION` into `"CONDIT ION"` — the very artifact the function's first
pass (`\bCONDIT\s+ION\b → CONDITION`) exists to repair — so the function
returns `"TITLE PRICE CONDIT ION"`, not `"TITLE PRICE CONDITION"`. -/
theorem fix_common_ocr_errors_on_fused_headers :
    fix_common_ocr_errors "TITLEPRICECONDITION" = "TITLE PRICE CONDIT ION" := by
  decide

/-! ## Orchestrator lemmas -/

theorem scoreOf_error {a : LabeledOutcome} {e : String} (h : a.outcome = Except.error e) :
    scoreOf a = 0 := by
  simp [scoreOf, h]

theorem scoreOf_ok {a : LabeledOutcome} {t : String} {c : ℚ} {bs : List Block}
    (h : a.outcome = Except.ok (t, c, bs)) : scoreOf a = c * (t.length : ℚ) := by
  simp [scoreOf, h]

theorem selectBest_cons (st : Option Candidate × ℚ) (a : LabeledOutcome)
    (l : List LabeledOutcome) : selectBest st (a :: l) = selectBest (stepBest st a) l := rfl

/-- Characterization of the best-candidate fold from a state with a
non-negative running score: either no attempt beats the incumbent score and
the state is unchanged, or the result is the *first* attempt that attains
the (strictly positive, maximal over all attempts) final score, packaged as
a candidate exactly as created at that attempt. -/
theorem selectBest_spec (l : List LabeledOutcome) :
    ∀ (ob₀ : Option Candidate) (s₀ : ℚ), 0 ≤ s₀ →
      (selectBest (ob₀, s₀) l = (ob₀, s₀) ∧ ∀ b ∈ l, scoreOf b ≤ s₀) ∨
      (∃ l₁ a l₂ t c bs,
        l = l₁ ++ a :: l₂ ∧
        a.outcome = Except.ok (t, c, bs) ∧
        selectBest (ob₀, s₀) l =
          (some ⟨t, c, bs, methodLabel a.engine a.variant⟩, c * (t.length : ℚ)) ∧
        s₀ < c * (t.length : ℚ) ∧
        (∀ b ∈ l₁, scoreOf b < c * (t.length : ℚ)) ∧
        (∀ b ∈ l, scoreOf b ≤ c * (t.length : ℚ))) := by
  induction l with
  | nil =>
    intro ob₀ s₀ h₀
    exact Or.inl ⟨rfl, by simp⟩
  | cons a l ih =>
    intro ob₀ s₀ h₀
    rw [selectBest_cons]
    cases ha : a.outcome with
    | error e =>
      have hst : stepBest (ob₀, s₀) a = (ob₀, s₀) := by simp [stepBest, ha]
      rw [hst]
      rcases ih ob₀ s₀ h₀ with ⟨heq, hb⟩ | ⟨l₁, b, l₂, t, c, bs, hl, hok, heq, hgt, hfirst, hall⟩
      · refine Or.inl ⟨heq, ?_⟩
        intro x hx
        rcases List.mem_cons.mp hx with rfl | hx
        · rw [scoreOf_error ha]; exact h₀
        · exact hb x hx
      · refine Or.inr ⟨a :: l₁, b, l₂, t, c, bs, by rw [hl, List.cons_append], hok, heq, hgt, ?_, ?_⟩
        · intro x hx
          rcases List.mem_cons.mp hx with rfl | hx
          · rw [scoreOf_error ha]; exact lt_of_le_of_lt h₀ hgt
          · exact hfirst x hx
        · intro x hx
          rcases List.mem_cons.mp hx with rfl | hx
          · rw [scoreOf_error ha]; exact le_of_lt (lt_of_le_of_lt h₀ hgt)
          · exact hall x hx
    | ok tcb =>
      obtain ⟨t₀, c₀, bs₀⟩ := tcb
      have hsc : scoreOf a = c₀ * (t₀.length : ℚ) := scoreOf_ok ha
      by_cases hlt : s₀ < c₀ * (t₀.length : ℚ)
      · have hst : stepBest (ob₀, s₀) a =
            (some ⟨t₀, c₀, bs₀, methodLabel a.engine a.variant⟩, c₀ * (t₀.length : ℚ)) := by
          simp [stepBest, ha, hlt]
        rw [hst]
        have h₀' : (0 : ℚ) ≤ c₀ * (t₀.length : ℚ) := le_of_lt (lt_of_le_of_lt h₀ hlt)
        rcases ih (some ⟨t₀, c₀, bs₀, methodLabel a.engine a.variant⟩)
            (c₀ * (t₀.length : ℚ)) h₀' with
          ⟨heq, hb⟩ | ⟨l₁, b, l₂, t, c, bs, hl, hok, heq, hgt, hfirst, hall⟩
        · refine Or.inr ⟨[], a, l, t₀, c₀, bs₀, by simp, ha, heq, hlt, by simp, ?_⟩
          intro x hx
          rcases List.mem_cons.mp hx with rfl | hx
          · rw [hsc]
          · exact hb x hx
        · refine Or.inr ⟨a :: l₁, b, l₂, t, c, bs, by rw [hl, List.cons_append], hok, heq,
            lt_trans hlt hgt, ?_, ?_⟩
          · intro x hx
            rcases List.mem_cons.mp hx with rfl | hx
            · rw [hsc]; exact hgt
            · exact hfirst x hx
          · intro x hx
            rcases List.mem_cons.mp hx with rfl | hx
            · rw [hsc]; exact le_of_lt hgt
            · exact hall x hx
      · have hst : stepBest (ob₀, s₀) a = (ob₀, s₀) := by simp [stepBest, ha, hlt]
        rw [hst]
        have hle : c₀ * (t₀.length : ℚ) ≤ s₀ := not_lt.mp hlt
        rcases ih ob₀ s₀ h₀ with ⟨heq, hb⟩ | ⟨l₁, b, l₂, t, c, bs, hl, hok, heq, hgt, hfirst, hall⟩
        · refine Or.inl ⟨heq, ?_⟩
          intro x hx
          rcases List.mem_cons.mp hx with rfl | hx
          · rw [hsc]; exact hle
          · exact hb x hx
        · refine Or.inr ⟨a :: l₁, b, l₂, t, c, bs, by rw [hl, List.cons_append], hok, heq, hgt, ?_, ?_⟩
          · intro x hx
            rcases List.mem_cons.mp hx with rfl | hx
            · rw [hsc]; exact lt_of_le_of_lt hle hgt
            · exact hfirst x hx
          · intro x hx
            rcases List.mem_cons.mp hx with rfl | hx
            · rw [hsc]; exact le_of_lt (lt_of_le_of_lt hle hgt)
            · exact hall x hx

theorem selectBest_unchanged {l : List LabeledOutcome} {ob₀ : Option Candidate} {s₀ : ℚ}
    (h₀ : 0 ≤ s₀) (h : ∀ b ∈ l, scoreOf b ≤ s₀) : selectBest (ob₀, s₀) l = (ob₀, s₀) := by
  rcases selectBest_spec l ob₀ s₀ h₀ with ⟨heq, _⟩ | ⟨l₁, a, l₂, t, c, bs, hl, hok, _, hgt, _, _⟩
  · exact heq
  · have hmem : a ∈ l := by
      rw [hl]; exact List.mem_append_right _ (List.mem_cons_self a l₂)
    have := h a hmem
    rw [scoreOf_ok hok] at this
    exact absurd hgt (not_lt.mpr this)

/-- Running `process_image_multi_method` is the best-candidate fold over the
executed attempts, started from `(None, 0.0)`. -/
theorem process_eq_selectBest (env : OcrEnv) :
    process_image_multi_method env =
      match (selectBest (none, 0) (executedAttempts env)).1 with
      | none => Except.error "All OCR methods failed"
      | some best => Except.ok best := by
  unfold process_image_multi_method executedAttempts
  by_cases hf : fallbackTriggered env
  · simp only [hf, if_true, selectBest, List.foldl_append, afterPrimary]
  · simp only [hf, if_false, Bool.false_eq_true, selectBest, List.foldl_nil,
      List.append_nil, afterPrimary]

/-- Shared characterization of a successful run: the returned candidate is
built, unmodified, from the first executed attempt attaining the maximal
(strictly positive) score. -/
theorem process_ok_char (env : OcrEnv) (cand : Candidate)
    (h : process_image_multi_method env = Except.ok cand) :
    ∃ l₁ a l₂ t c bs,
      executedAttempts env = l₁ ++ a :: l₂ ∧
      a.outcome = Except.ok (t, c, bs) ∧
      cand = ⟨t, c, bs, methodLabel a.engine a.variant⟩ ∧
      0 < c * (t.length : ℚ) ∧
      (∀ b ∈ executedAttempts env, scoreOf b ≤ c * (t.length : ℚ)) ∧
      (∀ b ∈ l₁, scoreOf b < c * (t.length : ℚ)) := by
  have hrun := process_eq_selectBest env
  rw [h] at hrun
  rcases selectBest_spec (executedAttempts env) none 0 le_rfl with
    ⟨heq, _⟩ | ⟨l₁, a, l₂, t, c, bs, hl, hok, heq, hgt, hfirst, hall⟩
  · rw [heq] at hrun
    simp at hrun
  · rw [heq] at hrun
    simp only [Except.ok.injEq] at hrun
    exact ⟨l₁, a, l₂, t, c, bs, hl, hok, hrun, hgt, hall, hfirst⟩

/-- Shared characterization of the terminal error: it is raised iff every
executed attempt has non-positive score (it threw, returned empty text, or
returned non-positive confidence). -/
theorem process_error_iff (env : OcrEnv) :
    process_image_multi_method env = Except.error "All OCR methods failed" ↔
      ∀ b ∈ executedAttempts env, scoreOf b ≤ 0 := by
  constructor
  · intro h
    rcases selectBest_spec (executedAttempts env) none 0 le_rfl with
      ⟨heq, hb⟩ | ⟨l₁, a, l₂, t, c, bs, hl, hok, heq, hgt, hfirst, hall⟩
    · exact hb
    · have hrun := process_eq_selectBest env
      rw [h, heq] at hrun
      simp at hrun
  · intro hb
    have := @selectBest_unchanged (executedAttempts env) none 0 (le_refl (0 : ℚ)) hb
    rw [process_eq_selectBest env, this]

/-- The only error the orchestrator can return is the terminal one. -/
theorem process_error_msg (env : OcrEnv) (e : String)
    (h : process_image_multi_method env = Except.error e) :
    e = "All OCR methods failed" := by
  have hrun := process_eq_selectBest env
  rw [h] at hrun
  rcases hsel : (selectBest (none, 0) (executedAttempts env)).1 with _ | c
  · rw [hsel] at hrun
    simp only [Except.error.injEq] at hrun
    exact hrun
  · rw [hsel] at hrun
    simp at hrun

theorem mem_primaryOutcomes {env : OcrEnv} {a : LabeledOutcome}
    (h : a ∈ primaryOutcomes env) :
    a.engine = EngineKind.primary ∧ a.variant ∈ env.variants ∧
      a.outcome = env.paddle a.variant := by
  unfold primaryOutcomes at h
  by_cases hp : env.paddleAvailable
  · rw [if_pos hp, List.mem_map] at h
    obtain ⟨v, hv, rfl⟩ := h
    exact ⟨rfl, hv, rfl⟩
  · rw [if_neg hp] at h
    exact absurd h (List.not_mem_nil a)

theorem mem_fallbackOutcomes {env : OcrEnv} {a : LabeledOutcome}
    (h : a ∈ fallbackOutcomes env) :
    a.engine = EngineKind.fallback ∧ a.variant ∈ env.variants ∧
      a.outcome = (env.tesseract a.variant).map (fun tc => (tc.1, tc.2, ([] : List Block))) := by
  unfold fallbackOutcomes at h
  rw [List.mem_map] at h
  obtain ⟨v, hv, rfl⟩ := h
  exact ⟨rfl, hv, rfl⟩

/-- If every primary attempt has non-positive score, the primary loop
retains nothing: its state is still `(None, 0.0)`, so the fallback loop
runs (when the fallback engine is available) and the trace covers every
variant with both engines, primary phase first. -/
theorem trace_when_no_primary_candidate (env : OcrEnv)
    (hpA : env.paddleAvailable = true) (hpT : env.tesseractAvailable = true)
    (h0 : ∀ b ∈ primaryOutcomes env, scoreOf b ≤ 0) :
    afterPrimary env = (none, 0) ∧
    attemptTrace env =
      env.variants.map (fun v => (EngineKind.primary, v)) ++
        env.variants.map (fun v => (EngineKind.fallback, v)) := by
  have hap : afterPrimary env = (none, 0) := selectBest_unchanged le_rfl h0
  have hft : fallbackTriggered env = true := by
    simp [fallbackTriggered, hap, hpT]
  refine ⟨hap, ?_⟩
  unfold attemptTrace executedAttempts
  rw [hft, if_pos rfl, List.map_append]
  unfold primaryOutcomes fallbackOutcomes
  rw [if_pos hpA]
  simp only [List.map_map]
  rfl

theorem score_nonpos_iff (a : LabeledOutcome) :
    scoreOf a ≤ 0 ↔
      (∃ e, a.outcome = Except.error e) ∨
      (∃ t c bs, a.outcome = Except.ok (t, c, bs) ∧ c * (t.length : ℚ) ≤ 0) := by
  cases ha : a.outcome with
  | error e => simp [scoreOf_error ha, ha]
  | ok tcb =>
    obtain ⟨t, c, bs⟩ := tcb
    rw [scoreOf_ok ha]
    constructor
    · intro h
      exact Or.inr ⟨t, c, bs, rfl, h⟩
    · rintro (⟨e, he⟩ | ⟨t1, c1, bs1, he, h⟩)
      · simp at he
      · simp only [Except.ok.injEq, Prod.mk.injEq] at he
        obtain ⟨rfl, rfl, rfl⟩ := he
        exact h

/-! ## C4: primary phase strictly before fallback phase -/

/-- C4: the recognition-call trace decomposes into a block of primary-engine
attempts followed by a block of fallback-engine attempts (never
interleaved); if some primary attempt produced a retained candidate
(positive score) the fallback engine is never attempted; and if the primary
engine throws on every variant (both engines being available), the trace is
exactly all variants on the primary engine followed by all variants on the
fallback engine. -/
theorem engine_phase_ordering (env : OcrEnv) :
    (∃ p f, attemptTrace env = p ++ f ∧ (∀ x ∈ p, x.1 = EngineKind.primary) ∧
      (∀ x ∈ f, x.1 = EngineKind.fallback)) ∧
    ((∃ a ∈ primaryOutcomes env, 0 < scoreOf a) →
      ∀ x ∈ attemptTrace env, x.1 = EngineKind.primary) ∧
    (env.paddleAvailable = true → env.tesseractAvailable = true →
      (∀ v ∈ env.variants, ∃ e, env.paddle v = Except.error e) →
      attemptTrace env =
        env.variants.map (fun v => (EngineKind.primary, v)) ++
          env.variants.map (fun v => (EngineKind.fallback, v))) := by
  refine ⟨⟨(primaryOutcomes env).map (fun a => (a.engine, a.variant)),
      (if fallbackTriggered env then fallbackOutcomes env else []).map
        (fun a => (a.engine, a.variant)),
      by rw [attemptTrace, executedAttempts, List.map_append], ?_, ?_⟩, ?_, ?_⟩
  · intro x hx
    rw [List.mem_map] at hx
    obtain ⟨a, ha, rfl⟩ := hx
    exact (mem_primaryOutcomes ha).1
  · intro x hx
    by_cases hft : fallbackTriggered env
    · rw [if_pos hft, List.mem_map] at hx
      obtain ⟨a, ha, rfl⟩ := hx
      exact (mem_fallbackOutcomes ha).1
    · rw [if_neg hft] at hx
      simp at hx
  · rintro ⟨a, hmem, hpos⟩ x hx
    have hft : fallbackTriggered env = false := by
      rcases selectBest_spec (primaryOutcomes env) none 0 le_rfl with
        ⟨_, hb⟩ | ⟨l₁, b, l₂, t, c, bs, hl, hok, heq, hgt, _, _⟩
      · exact absurd (hb a hmem) (not_le.mpr hpos)
      · simp [fallbackTriggered, afterPrimary, heq]
    rw [attemptTrace, executedAttempts, hft] at hx
    simp only [Bool.false_eq_true, if_false, List.append_nil, List.mem_map] at hx
    obtain ⟨b, hb, rfl⟩ := hx
    exact (mem_primaryOutcomes hb).1
  · intro hpA hpT herr
    have h0 : ∀ b ∈ primaryOutcomes env, scoreOf b ≤ 0 := by
      intro b hb
      obtain ⟨-, hv, hout⟩ := mem_primaryOutcomes hb
      obtain ⟨e, he⟩ := herr b.variant hv
      rw [scoreOf_error (hout.trans he)]
    exact (trace_when_no_primary_candidate env hpA hpT h0).2

/-- C4 (witness): with both engines available and the primary engine
throwing on both variants, the trace runs the primary engine on all
variants and then the fallback engine on all variants; and when the single
primary attempt scores positively, every issued call uses the primary
engine. -/
theorem engine_phase_ordering_witness :
    attemptTrace envAllThrow =
      ["original", "sharpened"].map (fun v => (EngineKind.primary, v)) ++
        ["original", "sharpened"].map (fun v => (EngineKind.fallback, v)) ∧
    ∀ x ∈ attemptTrace envPrimaryHit, x.1 = EngineKind.primary := by
  constructor
  · exact (engine_phase_ordering envAllThrow).2.2 rfl rfl
      (fun v _ => ⟨"engine crash", rfl⟩)
  · refine (engine_phase_ordering envPrimaryHit).2.1
      ⟨⟨EngineKind.primary, "original", Except.ok ("hello", 1, [])⟩, ?_, ?_⟩
    · simp [primaryOutcomes, envPrimaryHit]
    · simp [scoreOf]
      decide

/-! ## C5: the retained best candidate -/

/-- C5: when the run succeeds, the returned candidate comes from one of the
executed attempts, with exactly the fields created at that attempt (raw
text, confidence, blocks, method label) — never modified afterwards; its
score `confidence × textLength` is positive and maximal over all executed
attempts, and every attempt executed before it scored strictly less, so on
a tie of scores the first-encountered candidate is the one retained. -/
theorem best_candidate_unique_max_first (env : OcrEnv) (cand : Candidate)
    (h : process_image_multi_method env = Except.ok cand) :
    ∃ l₁ a l₂ t c bs,
      executedAttempts env = l₁ ++ a :: l₂ ∧
      a.outcome = Except.ok (t, c, bs) ∧
      cand = ⟨t, c, bs, methodLabel a.engine a.variant⟩ ∧
      0 < scoreOf a ∧
      (∀ b ∈ executedAttempts env, scoreOf b ≤ scoreOf a) ∧
      (∀ b ∈ l₁, scoreOf b < scoreOf a) := by
  obtain ⟨l₁, a, l₂, t, c, bs, hl, hok, hcand, hpos, hall, hfirst⟩ := process_ok_char env cand h
  refine ⟨l₁, a, l₂, t, c, bs, hl, hok, hcand, ?_, ?_, ?_⟩
  · rw [scoreOf_ok hok]; exact hpos
  · intro b hb; rw [scoreOf_ok hok]; exact hall b hb
  · intro b hb; rw [scoreOf_ok hok]; exact hfirst b hb

/-- C5 (witness): a concrete successful run, with its decomposition. -/
theorem best_candidate_unique_max_first_witness :
    ∃ l₁ a l₂ t c bs,
      executedAttempts envPrimaryHit = l₁ ++ a :: l₂ ∧
      a.outcome = Except.ok (t, c, bs) ∧
      (⟨"hello", 1, [], "paddleocr_original"⟩ : Candidate) =
        ⟨t, c, bs, methodLabel a.engine a.variant⟩ ∧
      0 < scoreOf a ∧
      (∀ b ∈ executedAttempts envPrimaryHit, scoreOf b ≤ scoreOf a) ∧
      (∀ b ∈ l₁, scoreOf b < scoreOf a) :=
  best_candidate_unique_max_first envPrimaryHit ⟨"hello", 1, [], "paddleocr_original"⟩ (by
    simp [process_image_multi_method, afterPrimary, primaryOutcomes, fallbackOutcomes,
      fallbackTriggered, selectBest, stepBest, envPrimaryHit, methodLabel]
    decide)

/-! ## C6: the terminal error -/

/-- C6 (counterexample to the claim as stated): in an environment where the
primary engine throws and the fallback engine succeeds with *non-empty*
text `"abc"` but confidence `0`, the pipeline still raises the terminal
error, though not every attempt "failed or returned empty text". -/
theorem no_candidate_error_counterexample :
    process_image_multi_method envZeroConf = Except.error "All OCR methods failed" ∧
    ∃ a ∈ executedAttempts envZeroConf,
      ¬((∃ e, a.outcome = Except.error e) ∨ ∃ c bs, a.outcome = Except.ok ("", c, bs)) := by
  refine ⟨?_, ⟨EngineKind.fallback, "original", Except.ok ("abc", 0, [])⟩, ?_, ?_⟩
  · simp [process_image_multi_method, afterPrimary, primaryOutcomes, fallbackOutcomes,
      fallbackTriggered, selectBest, stepBest, envZeroConf, Except.map]
  · simp [executedAttempts, primaryOutcomes, fallbackOutcomes, fallbackTriggered, afterPrimary,
      selectBest, stepBest, envZeroConf, Except.map]
  · rintro (⟨e, he⟩ | ⟨c, bs, he⟩) <;> simp at he

/-- C6 (amended): the terminal error is raised iff every executed attempt
either threw or returned a result of non-positive score `confidence ×
textLength` (empty text or non-positive confidence); the terminal message
is the only error the orchestrator ever returns (per-attempt failures never
propagate); and one positively-scoring attempt suffices for the run to
succeed with a candidate, regardless of other attempts failing. -/
theorem no_candidate_error_characterization (env : OcrEnv) :
    (process_image_multi_method env = Except.error "All OCR methods failed" ↔
      ∀ a ∈ executedAttempts env,
        (∃ e, a.outcome = Except.error e) ∨
        (∃ t c bs, a.outcome = Except.ok (t, c, bs) ∧ c * (t.length : ℚ) ≤ 0)) ∧
    (∀ e, process_image_multi_method env = Except.error e →
      e = "All OCR methods failed") ∧
    (∀ a ∈ executedAttempts env, 0 < scoreOf a →
      ∃ cand, process_image_multi_method env = Except.ok cand) := by
  refine ⟨Iff.trans (process_error_iff env) (forall₂_congr fun a _ => score_nonpos_iff a),
    process_error_msg env, ?_⟩
  intro a ha hpos
  cases hp : process_image_multi_method env with
  | ok cand => exact ⟨cand, rfl⟩
  | error e =>
    have hmsg := process_error_msg env e hp
    subst hmsg
    have := (process_error_iff env).mp hp a ha
    exact absurd hpos (not_lt.mpr this)

/-- C6 (witness): in a run with one throwing primary attempt and one
positively-scoring fallback attempt, the failure is caught and the run
succeeds. -/
theorem no_candidate_error_characterization_witness :
    ∃ cand, process_image_multi_method envAllThrow = Except.ok cand :=
  (no_candidate_error_characterization envAllThrow).2.2
    ⟨EngineKind.fallback, "original", Except.ok ("text", 1, [])⟩
    (by
      simp [executedAttempts, primaryOutcomes, fallbackOutcomes, fallbackTriggered, afterPrimary,
        selectBest, stepBest, envAllThrow, Except.map])
    (by simp [scoreOf]; decide)

/-! ## C10: zero-score attempts never become the best candidate -/

/-- C10: a returned best candidate always has positive score
`confidence × textLength`, so an attempt scoring `0` is never retained; if
every primary attempt succeeds but returns empty text or zero confidence,
the orchestrator proceeds to run the fallback engine on every variant
exactly as if the primary engine had produced no candidate; and if all
fallback attempts also score `0`, the terminal error is raised even though
no recognition call threw. -/
theorem zero_score_never_retained :
    (∀ (env : OcrEnv) (cand : Candidate),
      process_image_multi_method env = Except.ok cand →
      0 < cand.confidence * (cand.raw_text.length : ℚ)) ∧
    (∀ env : OcrEnv, env.paddleAvailable = true → env.tesseractAvailable = true →
      (∀ v ∈ env.variants, ∃ t c bs, env.paddle v = Except.ok (t, c, bs) ∧ (t = "" ∨ c = 0)) →
      attemptTrace env =
        env.variants.map (fun v => (EngineKind.primary, v)) ++
          env.variants.map (fun v => (EngineKind.fallback, v)) ∧
      ((∀ v ∈ env.variants, ∃ t c, env.tesseract v = Except.ok (t, c) ∧ (t = "" ∨ c = 0)) →
        process_image_multi_method env = Except.error "All OCR methods failed")) := by
  constructor
  · intro env cand h
    obtain ⟨l₁, a, l₂, t, c, bs, hl, hok, hcand, hpos, hall, hfirst⟩ := process_ok_char env cand h
    rw [hcand]
    exact hpos
  · intro env hpA hpT hprim
    have h0 : ∀ b ∈ primaryOutcomes env, scoreOf b ≤ 0 := by
      intro b hb
      obtain ⟨-, hv, hout⟩ := mem_primaryOutcomes hb
      obtain ⟨t, c, bs, he, hz⟩ := hprim b.variant hv
      rw [scoreOf_ok (hout.trans he)]
      rcases hz with rfl | rfl <;> simp
    obtain ⟨hap, htr⟩ := trace_when_no_primary_candidate env hpA hpT h0
    refine ⟨htr, ?_⟩
    intro htess
    have hft : fallbackTriggered env = true := by
      simp [fallbackTriggered, hap, hpT]
    refine (process_error_iff env).mpr ?_
    intro b hb
    rw [executedAttempts, hft, if_pos rfl, List.mem_append] at hb
    rcases hb with hb | hb
    · exact h0 b hb
    · obtain ⟨-, hv, hout⟩ := mem_fallbackOutcomes hb
      obtain ⟨t, c, he, hz⟩ := htess b.variant hv
      rw [he] at hout
      rw [scoreOf_ok hout]
      rcases hz with rfl | rfl <;> simp

/-- C10 (witness): both engines succeed on every variant but every result
scores `0`; the fallback phase still runs on all variants and the pipeline
raises the terminal error. -/
theorem zero_score_never_retained_witness :
    attemptTrace envAllZero =
      ["original", "sharpened"].map (fun v => (EngineKind.primary, v)) ++
        ["original", "sharpened"].map (fun v => (EngineKind.fallback, v)) ∧
    process_image_multi_method envAllZero = Except.error "All OCR methods failed" := by
  have h := (zero_score_never_retained).2 envAllZero rfl rfl ?hp
  case hp =>
    intro v hv
    rcases List.mem_cons.mp hv with rfl | hv
    · exact ⟨"", 1, [], rfl, Or.inl rfl⟩
    · rcases List.mem_cons.mp hv with rfl | hv
      · exact ⟨"text", 0, [], rfl, Or.inr rfl⟩
      · simp at hv
  refine ⟨h.1, h.2 ?_⟩
  intro v hv
  exact ⟨"", 1, rfl, Or.inl rfl⟩

/-! ## C7: reading-order reconstruction -/

instance : IsTotal Region (fun a b => a.y_top ≤ b.y_top) :=
  ⟨fun a b => le_total a.y_top b.y_top⟩

instance : IsTrans Region (fun a b => a.y_top ≤ b.y_top) :=
  ⟨fun _ _ _ hab hbc => le_trans hab hbc⟩

instance : IsTotal Region (fun a b => a.x_left ≤ b.x_left) :=
  ⟨fun a b => le_total a.x_left b.x_left⟩

instance : IsTrans Region (fun a b => a.x_left ≤ b.x_left) :=
  ⟨fun _ _ _ hab hbc => le_trans hab hbc⟩

/-- Whenever consecutive y-sorted regions are separated by more than half
their average height, every region starts its own line. -/
theorem groupLinesGo_singletons (rest : List Region) :
    ∀ p : Region,
      List.Chain' (fun a b => (a.height + b.height) / 2 * (1 / 2) < |b.y_top - a.y_top|)
        (p :: rest) →
      groupLinesGo p [p] rest = (p :: rest).map (fun r => [r]) := by
  induction rest with
  | nil => intro p _; rfl
  | cons c rest ih =>
    intro p h
    rw [List.chain'_cons] at h
    obtain ⟨hpc, hrest⟩ := h
    rw [groupLinesGo, if_neg (not_le.mpr hpc), List.map_cons]
    exact congrArg (List.cons [p]) (ih c hrest)

theorem groupLines_singletons (l : List Region)
    (h : List.Chain' (fun a b => (a.height + b.height) / 2 * (1 / 2) < |b.y_top - a.y_top|) l) :
    groupLines l = l.map (fun r => [r]) := by
  cases l with
  | nil => rfl
  | cons r rest => exact groupLinesGo_singletons rest r h

theorem sortLineByX_singleton (r : Region) : sortLineByX [r] = [r] := by
  simp [sortLineByX]

/-- C7: (a) whenever the regions have pairwise distinct `yTop` values that
are pairwise separated by more than the average height of the two regions
involved, the reconstruction emits exactly one line per region, in strictly
ascending `yTop` order (top to bottom); (b) for *every* input, within each
reconstructed line the regions appear in ascending `xLeft` order (left to
right). -/
theorem region_line_ordering :
    (∀ rs : List Region,
      rs.Pairwise (fun a b =>
        a.y_top ≠ b.y_top ∧ (a.height + b.height) / 2 < |a.y_top - b.y_top|) →
      linesStage rs = (sortRegionsByY rs).map (fun r => [r]) ∧
      (sortRegionsByY rs).Pairwise (fun a b => a.y_top < b.y_top) ∧
      (linesStage rs).length = rs.length ∧
      (linesStage rs).Pairwise (fun l₁ l₂ => ∀ a ∈ l₁, ∀ b ∈ l₂, a.y_top < b.y_top)) ∧
    (∀ rs : List Region, ∀ l ∈ linesStage rs,
      l.Pairwise (fun a b => a.x_left ≤ b.x_left)) := by
  constructor
  · intro rs hsep
    have hperm : List.Perm (sortRegionsByY rs) rs := List.perm_insertionSort _ rs
    have hsym : ∀ {x y : Region},
        (x.y_top ≠ y.y_top ∧ (x.height + y.height) / 2 < |x.y_top - y.y_top|) →
        (y.y_top ≠ x.y_top ∧ (y.height + x.height) / 2 < |y.y_top - x.y_top|) := by
      rintro x y ⟨hne, hlt⟩
      refine ⟨hne.symm, ?_⟩
      rw [abs_sub_comm, add_comm]
      exact hlt
    have hsep' := (List.Perm.pairwise_iff (fun {x y} => hsym) hperm).mpr hsep
    have hsorted : (sortRegionsByY rs).Pairwise (fun a b => a.y_top ≤ b.y_top) :=
      List.sorted_insertionSort _ rs
    have hlt : (sortRegionsByY rs).Pairwise (fun a b => a.y_top < b.y_top) :=
      (hsorted.and hsep').imp (fun h => lt_of_le_of_ne h.1 h.2.1)
    have hchain : List.Chain'
        (fun a b => (a.height + b.height) / 2 * (1 / 2) < |b.y_top - a.y_top|)
        (sortRegionsByY rs) := by
      refine List.Pairwise.chain' (hsep'.imp ?_)
      rintro a b ⟨-, hd⟩
      have habs : (0 : ℚ) ≤ |b.y_top - a.y_top| := abs_nonneg _
      rw [abs_sub_comm] at hd
      linarith
    have hstage : linesStage rs = (sortRegionsByY rs).map (fun r => [r]) := by
      rw [linesStage, groupLines_singletons _ hchain, List.map_map]
      refine List.map_congr_left ?_
      intro r _
      exact sortLineByX_singleton r
    refine ⟨hstage, hlt, ?_, ?_⟩
    · rw [hstage, List.length_map]
      exact hperm.length_eq
    · rw [hstage, List.pairwise_map]
      refine hlt.imp ?_
      intro a b hab x hx y hy
      rw [List.mem_singleton] at hx hy
      subst hx
      subst hy
      exact hab
  · intro rs l hl
    rw [linesStage, List.mem_map] at hl
    obtain ⟨l0, -, rfl⟩ := hl
    exact List.sorted_insertionSort _ l0

/-- Concrete regions for the C7 witness: distinct rows far apart. -/
def regionTop : Region :=
  { text := "top", confidence := 1, box := boxA,
    y_top := 0, x_left := 0, x_right := 20, height := 10 }

def regionBottom : Region :=
  { text := "bottom", confidence := 1, box := boxA,
    y_top := 100, x_left := 0, x_right := 20, height := 10 }

/-- C7 (witness): two regions, listed bottom-first, are re-ordered into two
singleton lines top-to-bottom. -/
theorem region_line_ordering_witness :
    linesStage [regionBottom, regionTop] =
      (sortRegionsByY [regionBottom, regionTop]).map (fun r => [r]) ∧
    (sortRegionsByY [regionBottom, regionTop]).Pairwise (fun a b => a.y_top < b.y_top) ∧
    (linesStage [regionBottom, regionTop]).length = 2 ∧
    (linesStage [regionBottom, regionTop]).Pairwise
      (fun l₁ l₂ => ∀ a ∈ l₁, ∀ b ∈ l₂, a.y_top < b.y_top) := by
  have h := region_line_ordering.1 [regionBottom, regionTop] ?hp
  case hp =>
    refine List.Pairwise.cons ?_ (List.pairwise_singleton _ _)
    intro b hb
    rw [List.mem_singleton] at hb
    subst hb
    constructor
    · norm_num [regionBottom, regionTop]
    · norm_num [regionBottom, regionTop]
  exact ⟨h.1, h.2.1, by rw [h.2.2.1]; rfl, h.2.2.2⟩

/-! ## C1: gap-dependent separator policy -/

/-- Concrete regions for the C1 witness: height 20 each, the second at
horizontal gap `g` from the first, on the same row. -/
def regionP : Region :=
  { text := "ab", confidence := 1, box := boxA,
    y_top := 0, x_left := 0, x_right := 20, height := 20 }

def regionQ (g : ℚ) : Region :=
  { text := "cd", confidence := 1, box := boxB g,
    y_top := 0, x_left := 20 + g, x_right := 40 + g, height := 20 }

/-- C1: for two regions placed consecutively on a reconstructed line, with
`gap = curr.xLeft − prev.xRight` and `avgHeight` the average of the two
heights (which is non-negative for regions built from boxes): a gap below
`1.0 × avgHeight` concatenates with no separator, a gap in
`[1.0 × avgHeight, 2.0 × avgHeight)` inserts exactly one space, and a gap
at or above `2.0 × avgHeight` inserts exactly two spaces; in particular one
space at a gap of exactly `1.0 ×` (for positive average height) and two
spaces at exactly `2.0 ×`.  The closed clauses run the whole
`merge_text_regions_by_line` at gaps `0.95×, 1.0×, 1.95×, 2.0×` of the
average height `20`. -/
theorem gap_spacing_policy :
    (∀ (prev curr : Region) (rest : List Region),
      0 ≤ prev.height → 0 ≤ curr.height →
      (curr.x_left - prev.x_right < (prev.height + curr.height) / 2 →
        partsGo prev (curr :: rest) = curr.text :: partsGo curr rest) ∧
      ((prev.height + curr.height) / 2 ≤ curr.x_left - prev.x_right →
        curr.x_left - prev.x_right < (prev.height + curr.height) / 2 * 2 →
        partsGo prev (curr :: rest) = (" " ++ curr.text) :: partsGo curr rest) ∧
      ((prev.height + curr.height) / 2 * 2 ≤ curr.x_left - prev.x_right →
        partsGo prev (curr :: rest) = ("  " ++ curr.text) :: partsGo curr rest) ∧
      (curr.x_left - prev.x_right = (prev.height + curr.height) / 2 →
        0 < (prev.height + curr.height) / 2 →
        partsGo prev (curr :: rest) = (" " ++ curr.text) :: partsGo curr rest) ∧
      (curr.x_left - prev.x_right = (prev.height + curr.height) / 2 * 2 →
        partsGo prev (curr :: rest) = ("  " ++ curr.text) :: partsGo curr rest)) ∧
    (merge_text_regions_by_line ["ab", "cd"] [1, 1] [boxA, boxB 19]).1 = ["abcd"] ∧
    (merge_text_regions_by_line ["ab", "cd"] [1, 1] [boxA, boxB 20]).1 = ["ab cd"] ∧
    (merge_text_regions_by_line ["ab", "cd"] [1, 1] [boxA, boxB 39]).1 = ["ab cd"] ∧
    (merge_text_regions_by_line ["ab", "cd"] [1, 1] [boxA, boxB 40]).1 = ["ab  cd"] := by
  refine ⟨?_, ?_, ?_, ?_, ?_⟩
  · intro prev curr rest hp hc
    refine ⟨?_, ?_, ?_, ?_, ?_⟩
    · intro h
      simp only [partsGo]
      split_ifs with h1 h2 <;> first | rfl | (exfalso; linarith)
    · intro hlo hhi
      simp only [partsGo]
      split_ifs with h1 h2 <;> first | rfl | (exfalso; linarith)
    · intro h
      simp only [partsGo]
      split_ifs with h1 h2 <;> first | rfl | (exfalso; linarith)
    · intro heq hpos
      simp only [partsGo]
      split_ifs with h1 h2 <;> first | rfl | (exfalso; linarith)
    · intro heq
      simp only [partsGo]
      split_ifs with h1 h3 <;> first | rfl | (exfalso; linarith)
  · norm_num [merge_text_regions_by_line, buildRegions, List.enum, List.enumFrom, mkRegion,
      boxA, boxB, linesStage, sortRegionsByY, List.insertionSort, List.orderedInsert,
      groupLines, groupLinesGo, sortLineByX, lineText, lineParts, partsGo]
    decide
  · norm_num [merge_text_regions_by_line, buildRegions, List.enum, List.enumFrom, mkRegion,
      boxA, boxB, linesStage, sortRegionsByY, List.insertionSort, List.orderedInsert,
      groupLines, groupLinesGo, sortLineByX, lineText, lineParts, partsGo]
    decide
  · norm_num [merge_text_regions_by_line, buildRegions, List.enum, List.enumFrom, mkRegion,
      boxA, boxB, linesStage, sortRegionsByY, List.insertionSort, List.orderedInsert,
      groupLines, groupLinesGo, sortLineByX, lineText, lineParts, partsGo]
    decide
  · norm_num [merge_text_regions_by_line, buildRegions, List.enum, List.enumFrom, mkRegion,
      boxA, boxB, linesStage, sortRegionsByY, List.insertionSort, List.orderedInsert,
      groupLines, groupLinesGo, sortLineByX, lineText, lineParts, partsGo]
    decide

/-- C1 (witness): at a gap of exactly the average height one space is
inserted; at exactly twice the average height two spaces are inserted. -/
theorem gap_spacing_policy_witness :
    partsGo regionP [regionQ 20] = [" cd"] ∧
    partsGo regionP [regionQ 40] = ["  cd"] := by
  constructor
  · have h := (gap_spacing_policy.1 regionP (regionQ 20) []
      (by norm_num [regionP]) (by norm_num [regionQ])).2.2.2.1
      (by norm_num [regionP, regionQ]) (by norm_num [regionP, regionQ])
    rw [h]
    decide
  · have h := (gap_spacing_policy.1 regionP (regionQ 40) []
      (by norm_num [regionP]) (by norm_num [regionQ])).2.2.2.2
      (by norm_num [regionP, regionQ])
    rw [h]
    decide

/-! ## C8: the Catalog Parser -/

/-- Every record `parseLine` emits passed the name-length guard and carries
the default condition and empty category. -/
theorem parseLine_fields {line : List Char} {p : ProductRecord}
    (h : parseLine line = some p) :
    3 ≤ p.name.length ∧ p.condition = "New" ∧ p.category = "" := by
  rw [parseLine] at h
  split at h
  · exact absurd h (by simp)
  · split at h
    · rename_i hcond
      rw [Option.some.injEq] at h
      subst h
      exact ⟨hcond.2, rfl, rfl⟩
    · exact absurd h (by simp)

theorem parsedPrice_vintage : parsedPrice "Vintage Lamp $45.00".data = some 45 := by
  have hsearch : reSearch pricePat "Vintage Lamp $45.00".data = some ("$45.00".data, []) := by
    decide
  have hstep : parsedPrice "Vintage Lamp $45.00".data =
      pyFloat ("$45.00".data.filter (fun c => ¬(c = '$' ∨ c = ','))) := by
    rw [parsedPrice, hsearch]
  rw [hstep]
  have hfilter : ("$45.00".data.filter (fun c => ¬(c = '$' ∨ c = ','))) = "45.00".data := by
    decide
  rw [hfilter]
  have hsplit : "45.00".data.splitOn '.' = ["45".data, "00".data] := by decide
  have hf1 : "45".data.foldl (fun acc c => acc * 10 + digitVal c) 0 = 45 := by decide
  have hf2 : "00".data.foldl (fun acc c => acc * 10 + digitVal c) 0 = 0 := by decide
  simp only [pyFloat, hsplit]
  rw [if_pos (by decide), hf1, hf2]
  norm_num

/-- Parsing the line "Vintage Lamp $45.00" emits the record from the claim. -/
theorem parseLine_vintage :
    parseLine "Vintage Lamp $45.00".data =
      some { name := "Vintage Lamp", price := some 45, description := "Vintage Lamp $45.00",
             condition := "New", category := "" } := by
  have hname : parsedName "Vintage Lamp $45.00".data = "Vintage Lamp".data := by decide
  rw [parseLine, if_neg (by decide), hname, if_pos (by decide), parsedPrice_vintage]

/-- Parsing the lone price "$12.50" drops the line: after price removal the
name is empty. -/
theorem parseLine_lone_price : parseLine "$12.50".data = none := by
  have hname : parsedName "$12.50".data = [] := by decide
  rw [parseLine, if_neg (by decide), hname, if_neg (by decide)]

/-- C8: `"Vintage Lamp $45.00"` parses to the record with name
`"Vintage Lamp"` and price `45.00`, the lone-price line `"$12.50"` is
dropped; and in general a record is emitted only with a post-price-removal
name of length at least 3, condition defaulted to `"New"` and an empty
category (the parser is a total function: malformed lines are skipped, not
errors). -/
theorem catalog_parsing :
    parse_product_catalog "Vintage Lamp $45.00\n$12.50" =
      [{ name := "Vintage Lamp", price := some 45, description := "Vintage Lamp $45.00",
         condition := "New", category := "" }] ∧
    (∀ (raw : String) (p : ProductRecord), p ∈ parse_product_catalog raw →
      3 ≤ p.name.length ∧ p.condition = "New" ∧ p.category = "") := by
  constructor
  · rw [parse_product_catalog]
    have hlines : (((splitNl ("Vintage Lamp $45.00\n$12.50").data).map pyStrip).filter
        (fun l => l ≠ [])) = ["Vintage Lamp $45.00".data, "$12.50".data] := by decide
    rw [hlines]
    rw [List.filterMap_cons, parseLine_vintage, List.filterMap_cons, parseLine_lone_price]
    rfl
  · intro raw p hp
    rw [parse_product_catalog, List.mem_filterMap] at hp
    obtain ⟨line, -, hline⟩ := hp
    exact parseLine_fields hline

/-- C8 (witness): the record emitted for the claim's two-line input indeed
satisfies the guard properties. -/
theorem catalog_parsing_witness :
    ∃ p ∈ parse_product_catalog "Vintage Lamp $45.00\n$12.50",
      3 ≤ p.name.length ∧ p.condition = "New" ∧ p.category = "" := by
  have hmem : ProductRecord.mk "Vintage Lamp" (some 45) "Vintage Lamp $45.00" "New" "" ∈
      parse_product_catalog "Vintage Lamp $45.00\n$12.50" := by
    rw [catalog_parsing.1]
    exact List.mem_singleton.mpr rfl
  exact ⟨_, hmem, catalog_parsing.2 _ _ hmem⟩

/-! ## C9: preprocessed-variant emission -/

/-- C9: the four baseline variants come first in fixed order;
`150pct_sharp` is emitted iff a source dimension is below 2000 px and
`200pct_sharp` iff one is below 1500 px, in that order after the baseline;
the list length is 4, 5 or 6. -/
theorem preprocess_variant_emission (width height : ℕ) :
    (preprocess_image_enhanced width height).take 4 =
      ["original", "sharpened", "enhanced_sharp", "contrast_sharp"] ∧
    ("150pct_sharp" ∈ preprocess_image_enhanced width height ↔
      (width < 2000 ∨ height < 2000)) ∧
    ("200pct_sharp" ∈ preprocess_image_enhanced width height ↔
      (width < 1500 ∨ height < 1500)) ∧
    preprocess_image_enhanced width height =
      ["original", "sharpened", "enhanced_sharp", "contrast_sharp"] ++
        (if width < 2000 ∨ height < 2000 then ["150pct_sharp"] else []) ++
        (if width < 1500 ∨ height < 1500 then ["200pct_sharp"] else []) ∧
    ((preprocess_image_enhanced width height).length = 4 ∨
      (preprocess_image_enhanced width height).length = 5 ∨
      (preprocess_image_enhanced width height).length = 6) := by
  by_cases h1 : width < 2000 ∨ height < 2000 <;>
    by_cases h2 : width < 1500 ∨ height < 1500 <;>
      simp [preprocess_image_enhanced, h1, h2, List.append_assoc]

/-- C9 (witness): a small source (1000 × 3000) emits all six variants. -/
theorem preprocess_variant_emission_witness :
    preprocess_image_enhanced 1000 3000 =
      ["original", "sharpened", "enhanced_sharp", "contrast_sharp",
        "150pct_sharp", "200pct_sharp"] := by
  rw [(preprocess_variant_emission 1000 3000).2.2.2.1]
  decide
